import Mathlib

/-!
Verification development for the Secuconnect checkout UI test
(`UI-Test-Checkout.py`).  The Python page object `CheckoutPage` is shallowly
embedded: the browser session is made explicit (the polled URL sequence, the
DOM as a list of elements in document order, the active frame context), and
each method of the page object becomes a pure Lean function over that state.
Timing is modelled by finite observation sequences: a bounded wait either
finds its element (`some`) or times out (`none`).
-/

namespace Checkout

/-! ## String helpers mirroring the Python / XPath string operations -/

/-- Tests whether the second list starts with the first (character lists). -/
def begins (pat : List Char) : List Char → Bool
  | [] => pat.isEmpty
  | d :: t =>
    match pat with
    | [] => true
    | c :: p => c == d && begins p t

/-- Substring test on character lists; `hasSub pat s` models Python's
`pat in s` and XPath's `contains(s, pat)`. -/
def hasSub (pat : List Char) : List Char → Bool
  | [] => pat.isEmpty
  | d :: t => begins pat (d :: t) || hasSub pat t

/-- Substring test on strings: `strContains s pat` models `pat in s`. -/
def strContains (s pat : String) : Bool :=
  hasSub pat.data s.data

/-- Models Python's `str.upper()` on the ASCII range, as used on URLs. -/
def upperStr (s : String) : String :=
  ⟨s.data.map Char.toUpper⟩

/-- Models the XPath `translate(·, 'ABC…XYZÄÖÜ', 'abc…xyzäöü')` lowercasing
used by the attribute-keyword locators, and Python's `str.lower()` on the
keyword side (all keywords in the source are ASCII). -/
def lowerDE (s : String) : String :=
  ⟨s.data.map fun c =>
    if c = 'Ä' then 'ä' else if c = 'Ö' then 'ö' else if c = 'Ü' then 'ü'
    else c.toLower⟩

/-- Models Python's `str.strip()` on a character list. -/
def stripList (l : List Char) : List Char :=
  ((l.dropWhile Char.isWhitespace).reverse.dropWhile Char.isWhitespace).reverse

/-- Models Python's `str.strip()`. -/
def pyStrip (s : String) : String :=
  ⟨stripList s.data⟩

/-! ## Outcome classifier (`CheckoutPage.wait_for_result`) -/

/-- Terminal classification of the checkout attempt; the string results
`"SUCCESS_URL"`, `"ERROR_URL"`, `"FAILURE_URL"`, a stripped message text and
`"UNKNOWN"` of the Python method become the five constructors. -/
inductive Outcome where
  | SuccessUrl
  | ErrorUrl
  | FailureUrl
  | MessageText (s : String)
  | Unknown
  deriving DecidableEq, Repr

/-- Classification a single poll iteration of `wait_for_result` applies to
the current URL: the body of the `while` loop uppercases the URL and checks
`"SUCCESS"`, then `"ERROR"`, then `"FAILURE"`/`"ABORT"`. -/
def classify_url (u : String) : Option Outcome :=
  if strContains (upperStr u) "SUCCESS" then some .SuccessUrl
  else if strContains (upperStr u) "ERROR" then some .ErrorUrl
  else if strContains (upperStr u) "FAILURE" || strContains (upperStr u) "ABORT" then
    some .FailureUrl
  else none

/-- The words of the fallback XPath
`//*[contains(.,'erfolgreich') or contains(.,'success') or
contains(.,'fehlgeschlagen') or contains(.,'failed')]`. -/
def vocabMatch (t : String) : Bool :=
  strContains t "erfolgreich" || strContains t "success" ||
    strContains t "fehlgeschlagen" || strContains t "failed"

/-- Embedding of `CheckoutPage.wait_for_result`.  `urls` is the sequence of
values of `driver.current_url or ""` read by the polling loop before the
deadline `end` elapses (one entry per iteration of the `while` loop);
`pageEl` is the result of the subsequent bounded 5-second wait for a
status-text element: `some t` when such an element became visible with text
`t`, `none` when that wait timed out. -/
def wait_for_result (urls : List String) (pageEl : Option String) : Outcome :=
  match urls with
  | u :: rest =>
    if strContains (upperStr u) "SUCCESS" then .SuccessUrl
    else if strContains (upperStr u) "ERROR" then .ErrorUrl
    else if strContains (upperStr u) "FAILURE" || strContains (upperStr u) "ABORT" then
      .FailureUrl
    else wait_for_result rest pageEl
  | [] =>
    match pageEl with
    | some t => if pyStrip t = "" then .Unknown else .MessageText (pyStrip t)
    | none => .Unknown

/-! ## DOM model and the locator engine

The DOM is a flat list of elements in document order.  Selenium's
`find_element` returns the first element matching a locator in document
order; `EC.visibility_of_element_located` repeatedly finds that element and
succeeds only when it is displayed — in this timeless model a wait on an
element that is not visible times out.  A bounded wait that times out, and a
Python exception, are both `none`. -/

/-- One DOM element.  `forAttr = ""` models a missing or empty `for`
attribute (both are falsy in the Python `if for_id:` test); `value` is the
current content of the field. -/
structure Elem where
  tag : String
  text : String
  forAttr : String
  idAttr : String
  nameAttr : String
  placeholder : String
  ariaLabel : String
  editableAttr : Bool
  visible : Bool
  value : String
  deriving DecidableEq, Repr

/-- A default element: not a field, no attributes, hidden, empty. -/
def blankElem : Elem :=
  { tag := "", text := "", forAttr := "", idAttr := "", nameAttr := ""
    placeholder := "", ariaLabel := "", editableAttr := false
    visible := false, value := "" }

/-- The locators produced by `CheckoutPage`: `By.ID`, the
`following::*[self::input or self::textarea][1]` XPath anchored at a label's
document position, the attribute-keyword XPath of `_input_by_attrs_keywords`,
and the contenteditable XPath of `_enter_any`'s last fallback. -/
inductive Locator where
  | byId (s : String)
  | followingField (labelIdx : Nat)
  | attrs (keywords : List String)
  | editable (keywords : List String)
  deriving DecidableEq, Repr

/-- Is the element an `input` or `textarea` (the XPath
`self::input or self::textarea`)? -/
def isFieldTag (e : Elem) : Bool :=
  e.tag == "input" || e.tag == "textarea"

/-- The predicate of `_input_by_attrs_keywords`: some keyword is a
(lowercased) substring of some attribute among `name`, `id`, `placeholder`,
`aria-label`. -/
def attrKwMatch (kws : List String) (e : Elem) : Bool :=
  kws.any fun kw =>
    strContains (lowerDE e.nameAttr) (lowerDE kw) ||
    strContains (lowerDE e.idAttr) (lowerDE kw) ||
    strContains (lowerDE e.placeholder) (lowerDE kw) ||
    strContains (lowerDE e.ariaLabel) (lowerDE kw)

/-- The predicate of the contenteditable fallback XPath:
`@contenteditable='true'` and some keyword is a substring of the lowercased
`aria-label`. -/
def editableKwMatch (kws : List String) (e : Elem) : Bool :=
  e.editableAttr && kws.any fun kw => strContains (lowerDE e.ariaLabel) (lowerDE kw)

/-- First element satisfying `p`, searching from absolute index `i`;
returns the absolute index and the element. -/
def findFrom (p : Elem → Bool) : Nat → List Elem → Option (Nat × Elem)
  | _, [] => none
  | i, e :: rest => if p e then some (i, e) else findFrom p (i + 1) rest

/-- Selenium `find_element` on this DOM model: the first element matching
the locator in document order. -/
def findElem (dom : List Elem) : Locator → Option (Nat × Elem)
  | .byId s => findFrom (fun e => e.idAttr == s) 0 dom
  | .followingField i => findFrom isFieldTag (i + 1) (dom.drop (i + 1))
  | .attrs kws => findFrom (fun e => isFieldTag e && attrKwMatch kws e) 0 dom
  | .editable kws => findFrom (editableKwMatch kws) 0 dom

/-- `el.clear()`. -/
def clearEl (e : Elem) : Elem := { e with value := "" }

/-- `el.send_keys(t)`: typing appends to the current content. -/
def typeKeys (e : Elem) (t : String) : Elem := { e with value := e.value ++ t }

/-- Embedding of `CheckoutPage._enter_text`: wait for visibility of the
first element the locator finds (timeout — `none` — when there is no match
or the match is not visible), scroll into view, `clear()`, `send_keys(text)`.
Returns the updated DOM. -/
def enter_text (dom : List Elem) (loc : Locator) (text : String) : Option (List Elem) :=
  match findElem dom loc with
  | none => none
  | some (i, e) =>
    if e.visible then some (dom.set i (typeKeys (clearEl e) text)) else none

/-- Embedding of `CheckoutPage._by_label_input`: wait for presence of the
first `label` whose normalized text equals `lbl` (presence only, no
visibility requirement), then resolve its `for` attribute to `By.ID`, or
fall back to the first following `input`/`textarea`. -/
def by_label_input (dom : List Elem) (lbl : String) : Option Locator :=
  match findFrom (fun e => e.tag == "label" && e.text == lbl) 0 dom with
  | none => none
  | some (i, e) =>
    if e.forAttr ≠ "" then some (.byId e.forAttr) else some (.followingField i)

/-- One label-exact attempt of `_enter_any`: resolve the label to a locator
and enter the text through `_enter_text`; any failure is `none`. -/
def try_label (dom : List Elem) (lbl value : String) : Option (List Elem) :=
  match by_label_input dom lbl with
  | none => none
  | some loc => enter_text dom loc value

/-- The `for lbl in label_candidates:` loop of `_enter_any`: the label
candidates are tried in the given order and the first that succeeds wins.
Returns the updated DOM and the successful candidate. -/
def try_labels (dom : List Elem) : List String → String → Option (List Elem × String)
  | [], _ => none
  | l :: rest, value =>
    match try_label dom l value with
    | some dom' => some (dom', l)
    | none => try_labels dom rest value

/-- The strategy through which `_enter_any` succeeded (for `labelExact`,
also the winning label candidate). -/
inductive Strategy where
  | labelExact (lbl : String)
  | attrKeyword
  | editable
  deriving DecidableEq, Repr

/-- The contenteditable fallback of `_enter_any`: wait for visibility of the
first matching element, scroll into view, `click()`, `send_keys(value)` —
with no `clear()` before typing. -/
def editable_enter (dom : List Elem) (kws : List String) (text : String) :
    Option (List Elem) :=
  match findElem dom (.editable kws) with
  | none => none
  | some (i, e) =>
    if e.visible then some (dom.set i (typeKeys e text)) else none

/-- The initial attempt of `_enter_any` on `next(iter(label_candidates))`:
on an empty candidate list the `StopIteration` is swallowed by the
`except`. -/
def first_attempt (dom : List Elem) (labels : List String) (value : String) :
    Option (List Elem × String) :=
  match labels with
  | [] => none
  | l :: _ =>
    match try_label dom l value with
    | some dom' => some (dom', l)
    | none => none

/-- Embedding of `CheckoutPage._enter_any`: an initial attempt on the first
label candidate, then the loop over all candidates, then the
attribute-keyword strategy, then the contenteditable fallback; `none` models
the final `raise RuntimeError`. -/
def enter_any (dom : List Elem) (labels kws : List String) (value : String) :
    Option (List Elem × Strategy) :=
  match first_attempt dom labels value with
  | some (dom', l) => some (dom', .labelExact l)
  | none =>
    match try_labels dom labels value with
    | some (dom', l) => some (dom', .labelExact l)
    | none =>
      match enter_text dom (.attrs kws) value with
      | some dom' => some (dom', .attrKeyword)
      | none =>
        match editable_enter dom kws value with
        | some dom' => some (dom', .editable)
        | none => none

/-- The first label candidate (in the descriptor's order) on which a
label-exact attempt succeeds. -/
def first_working (dom : List Elem) (labels : List String) (value : String) :
    Option String :=
  labels.find? fun l => (try_label dom l value).isSome

/-! Concrete DOM fixtures used to evaluate the engine on closed inputs. -/

/-- Spec scenario A: `<label for="em">E-Mail</label><input id="em">`, the
input visible. -/
def domLabelFor : List Elem :=
  [ { blankElem with tag := "label", text := "E-Mail", forAttr := "em" },
    { blankElem with tag := "input", idAttr := "em", visible := true } ]

/-- A hidden input whose `id` `email1` itself matches the attribute keyword
`email`. -/
def hiddenShadowInput : Elem :=
  { blankElem with tag := "input", idAttr := "email1", visible := false }

/-- A visible input whose `name` `email2` matches the attribute keyword
`email`. -/
def visibleShadowInput : Elem :=
  { blankElem with tag := "input", nameAttr := "email2", visible := true }

/-- A hidden labelled input whose `id` also matches the attribute keyword
`email`, next to a visible input that matches it too: the labelled element
shadows the visible one in the attribute-keyword strategy. -/
def domHiddenShadow : List Elem :=
  [ { blankElem with tag := "label", text := "E-Mail", forAttr := "email1" },
    hiddenShadowInput,
    visibleShadowInput ]

/-- A visible input whose `name` `customerEmail` matches the attribute
keyword `email`. -/
def custEmailInput : Elem :=
  { blankElem with tag := "input", nameAttr := "customerEmail", visible := true }

/-- A hidden labelled input (`id` not matching any keyword) next to a
visible input matching the attribute keyword. -/
def domHiddenLabel : List Elem :=
  [ { blankElem with tag := "label", text := "E-Mail", forAttr := "em" },
    { blankElem with tag := "input", idAttr := "em", visible := false },
    custEmailInput ]

/-- Two labels whose texts both occur as candidates, each pointing at its
own visible input. -/
def domTwoLabels : List Elem :=
  [ { blankElem with tag := "label", text := "E-Mail", forAttr := "em" },
    { blankElem with tag := "input", idAttr := "em", visible := true },
    { blankElem with tag := "label", text := "Email", forAttr := "em2" },
    { blankElem with tag := "input", idAttr := "em2", visible := true } ]

/-! ## Frame navigator (`_switch_into_iframe_with`, `_leave_iframe`)

The active frame context of the one browser session is either the top-level
document or one iframe, identified by its position in document order.  For a
given probe locator and timeout, each iframe either shows the probe within
the timeout or does not; a run of `_switch_into_iframe_with` is therefore
determined by the list of these Booleans in document order. -/

/-- The active frame context of the browser session. -/
inductive FrameCtx where
  | top
  | frame (i : Nat)
  deriving DecidableEq, Repr

/-- The `for f in iframes:` loop of `_switch_into_iframe_with`, starting at
iframe index `i`: switch into each iframe in turn; on the first iframe where
the probe becomes visible, return `True` with that frame active; when the
loop ends, switch back to the top-level document and return `False`. -/
def switchLoop : Nat → List Bool → FrameCtx × Bool
  | _, [] => (.top, false)
  | i, b :: rest => if b then (.frame i, true) else switchLoop (i + 1) rest

/-- Embedding of `CheckoutPage._switch_into_iframe_with`: the method first
executes `driver.switch_to.default_content()`, discarding the prior context,
then runs the loop over all iframes.  `frames` holds, per iframe in document
order, whether the probe locator becomes visible inside it within the
timeout. -/
def switch_into_iframe_with (prior : FrameCtx) (frames : List Bool) :
    FrameCtx × Bool :=
  let _ := prior
  switchLoop 0 frames

/-- Embedding of `CheckoutPage._leave_iframe`:
`driver.switch_to.default_content()`. -/
def leave_iframe (prior : FrameCtx) : FrameCtx :=
  let _ := prior
  .top

/-- A call to one of the two frame-navigator methods; for `enter`, the
per-iframe probe outcomes of that call. -/
inductive FrameOp where
  | enter (frames : List Bool)
  | leave
  deriving DecidableEq, Repr

/-- The frame context after a sequence of frame-navigator calls. -/
def runFrameOps : FrameCtx → List FrameOp → FrameCtx
  | ctx, [] => ctx
  | ctx, .enter frames :: rest => runFrameOps (switch_into_iframe_with ctx frames).1 rest
  | ctx, .leave :: rest => runFrameOps (leave_iframe ctx) rest

/-! ## Customer form (`fill_customer_data`)

`fill_customer_data` fills the fields in a fixed textual order; the
salutation block and the country block are wrapped in `try/except` that
swallows every exception, the six other fields are plain calls whose
exceptions propagate.  `fails f` states whether filling field `f` would
raise; the embedding returns the fields the flow reached, in order, and the
field whose failure propagated, if any. -/

/-- The customer-form fields, one per fill site in `fill_customer_data`. -/
inductive Field where
  | email
  | salutation
  | first_name
  | last_name
  | zip_code
  | city
  | street
  | country
  deriving DecidableEq, Repr, Fintype

/-- The textual order of the fill sites in `fill_customer_data`. -/
def fieldOrder : List Field :=
  [.email, .salutation, .first_name, .last_name, .zip_code, .city, .street, .country]

/-- The fields whose fill site is wrapped in an exception-swallowing
`try/except` block. -/
def best_effort : Field → Bool
  | .salutation => true
  | .country => true
  | _ => false

/-- Runs the fill sites of `fill_customer_data` in order: a failure at a
best-effort site is swallowed and the flow continues; a failure at any other
site propagates and the remaining sites are not reached.  Returns the sites
reached, in order, and the propagated failure. -/
def fill_sites (fails : Field → Bool) : List Field → List Field × Option Field
  | [] => ([], none)
  | f :: rest =>
    if fails f then
      if best_effort f then
        let r := fill_sites fails rest
        (f :: r.1, r.2)
      else
        ([f], some f)
    else
      let r := fill_sites fails rest
      (f :: r.1, r.2)

/-- Embedding of `CheckoutPage.fill_customer_data` at the level of its fill
sites. -/
def fill_customer_data (fails : Field → Bool) : List Field × Option Field :=
  fill_sites fails fieldOrder

/-! ## Credit-card form (`fill_credit_card`): the expiry entry -/

/-- Immutable card record (`TestConfig.CREDIT_CARD`). -/
structure CardData where
  holder : String
  number : String
  cvv : String
  expiry_month : String
  expiry_year : String
  deriving DecidableEq, Repr

/-- Python's `s[-2:]`: the last two characters, or all of a shorter string. -/
def lastTwo (s : String) : String :=
  ⟨s.data.drop (s.data.length - 2)⟩

/-- The locators `fill_credit_card` passes to `_enter_text`:
`(By.XPATH, xp)` or `(By.ID, i)`. -/
inductive CardLocator where
  | xpath (xp : String)
  | byId (i : String)
  deriving DecidableEq, Repr

/-- The `EXPIRY_XP` XPath constant of `fill_credit_card`. -/
def EXPIRY_XP : String :=
  "//input[@id='exp-date' or @name='expiry' or " ++
    "contains(@placeholder,'MM') or contains(@placeholder,'Expiry')]"

/-- The `CARD_NUMBER_XP` XPath constant of `fill_credit_card`. -/
def CARD_NUMBER_XP : String :=
  "//input[@id='card-number' or @name='cardNumber' or " ++
    "contains(@placeholder,'Card number') or contains(@placeholder,'Kartennummer') or " ++
    "@inputmode='numeric' or @type='tel']"

/-- The `CVC_XP` XPath constant of `fill_credit_card`. -/
def CVC_XP : String :=
  "//input[@id='cardCvv' or @name='cvc' or " ++
    "contains(@placeholder,'CVC') or contains(@placeholder,'CVV')]"

/-- The expiry portion of `fill_credit_card`: a first `_enter_text` on
`EXPIRY_XP` with the combined string
`f"\x7bcard['expiry_month']\x7d/\x7bcard['expiry_year'][-2:]\x7d"`; when that
raises (`combinedOk = false`), the `except` branch enters month and year
separately through `(By.ID, "exp-date")` and `(By.ID, "expiryYear")`.
Returns the `_enter_text` calls attempted, in order, as locator–value
pairs. -/
def fill_expiry_attempts (combinedOk : Bool) (card : CardData) :
    List (CardLocator × String) :=
  let combined : CardLocator × String :=
    (.xpath EXPIRY_XP, card.expiry_month ++ "/" ++ lastTwo card.expiry_year)
  if combinedOk then
    [combined]
  else
    [combined, (.byId "exp-date", card.expiry_month),
      (.byId "expiryYear", card.expiry_year)]

/-- The `_enter_text` calls of `fill_credit_card` on its three fixed
locators, in order: card number, then the expiry attempts, then the CVC.
(The card-holder field goes through `enter_any` and the iframe probe through
`switch_into_iframe_with`; both are modelled separately.) -/
def fill_credit_card_attempts (combinedOk : Bool) (card : CardData) :
    List (CardLocator × String) :=
  (.xpath CARD_NUMBER_XP, card.number) ::
    fill_expiry_attempts combinedOk card ++ [(.xpath CVC_XP, card.cvv)]

/-- The configured test card of `TestConfig.CREDIT_CARD`. -/
def testCard : CardData :=
  { holder := "Max Mustermann", number := "4635440000002298", cvv := "123"
    expiry_month := "12", expiry_year := "2026" }

/-- A failure pattern hitting exactly the city field. -/
def failsCity : Field → Bool := fun f => f == .city

/-- The DOM of scenario A after a first `_enter_text` of `"aaa"`. -/
def dom7a : List Elem :=
  domLabelFor.set 1
    { blankElem with tag := "input", idAttr := "em", visible := true, value := "aaa" }

/-- The DOM of scenario A after a second `_enter_text` of `"bbb"`. -/
def dom7b : List Elem :=
  domLabelFor.set 1
    { blankElem with tag := "input", idAttr := "em", visible := true, value := "bbb" }

/-- A visible contenteditable element with pre-existing content. -/
def editDiv : Elem :=
  { blankElem with tag := "div", ariaLabel := "email", editableAttr := true
                   visible := true, value := "old" }

/-- A DOM holding only `editDiv`. -/
def domEditable : List Elem := [editDiv]

/-! ## Supporting lemmas -/

theorem begins_mem {pat s : List Char} (h : begins pat s = true) : ∀ c ∈ pat, c ∈ s := by
  induction s generalizing pat with
  | nil =>
    cases pat with
    | nil => intro c hc; cases hc
    | cons c p => simp [begins] at h
  | cons d t ih =>
    cases pat with
    | nil => intro c hc; cases hc
    | cons c p =>
      simp only [begins, Bool.and_eq_true, beq_iff_eq] at h
      intro x hx
      rcases List.mem_cons.mp hx with rfl | hx
      · rw [h.1]; exact List.mem_cons_self _ _
      · exact List.mem_cons_of_mem _ (ih h.2 x hx)

theorem hasSub_mem {pat s : List Char} (h : hasSub pat s = true) : ∀ c ∈ pat, c ∈ s := by
  induction s with
  | nil =>
    cases pat with
    | nil => intro c hc; cases hc
    | cons c p => simp [hasSub] at h
  | cons d t ih =>
    simp only [hasSub, Bool.or_eq_true] at h
    rcases h with h | h
    · exact begins_mem h
    · intro c hc
      exact List.mem_cons_of_mem _ (ih h c hc)

theorem strContains_mem {s pat : String} (h : strContains s pat = true) :
    ∀ c ∈ pat.data, c ∈ s.data :=
  hasSub_mem h

theorem mem_dropWhile_of_mem {p : Char → Bool} {c : Char} {l : List Char}
    (hc : c ∈ l) (hp : p c = false) : c ∈ l.dropWhile p := by
  induction l with
  | nil => cases hc
  | cons d t ih =>
    rcases List.mem_cons.mp hc with rfl | h
    · simp [List.dropWhile_cons, hp]
    · simp only [List.dropWhile_cons]
      split
      · exact ih h
      · exact List.mem_cons_of_mem _ h

theorem stripList_ne_nil {l : List Char} {c : Char} (hc : c ∈ l)
    (hw : c.isWhitespace = false) : stripList l ≠ [] := by
  unfold stripList
  intro h
  have h1 : c ∈ (l.dropWhile Char.isWhitespace).reverse.dropWhile Char.isWhitespace :=
    mem_dropWhile_of_mem (List.mem_reverse.mpr (mem_dropWhile_of_mem hc hw)) hw
  rw [List.reverse_eq_nil_iff] at h
  rw [h] at h1
  cases h1

theorem pyStrip_ne_empty {t : String} {c : Char} (hc : c ∈ t.data)
    (hw : c.isWhitespace = false) : pyStrip t ≠ "" := by
  intro h
  exact stripList_ne_nil hc hw (congrArg String.data h)

theorem vocab_strip_ne_empty {t : String} (h : vocabMatch t = true) : pyStrip t ≠ "" := by
  unfold vocabMatch at h
  simp only [Bool.or_eq_true] at h
  rcases h with ((h | h) | h) | h
  · exact pyStrip_ne_empty (strContains_mem h 'e' (by decide)) (by decide)
  · exact pyStrip_ne_empty (strContains_mem h 's' (by decide)) (by decide)
  · exact pyStrip_ne_empty (strContains_mem h 'f' (by decide)) (by decide)
  · exact pyStrip_ne_empty (strContains_mem h 'f' (by decide)) (by decide)

theorem wfr_cons (u : String) (rest : List String) (p : Option String) :
    wait_for_result (u :: rest) p =
      match classify_url u with
      | some o => o
      | none => wait_for_result rest p := by
  simp only [wait_for_result, classify_url]
  split_ifs <;> rfl

theorem wfr_append {pre : List String} (urls : List String) (p : Option String)
    (h : ∀ v ∈ pre, classify_url v = none) :
    wait_for_result (pre ++ urls) p = wait_for_result urls p := by
  induction pre with
  | nil => rfl
  | cons u t ih =>
    rw [List.cons_append, wfr_cons, h u (List.mem_cons_self u t)]
    exact ih fun v hv => h v (List.mem_cons_of_mem _ hv)

/-! ## The claims -/

/-- C1: while the deadline has not elapsed, a poll whose URL (compared
case-insensitively) contains "SUCCESS" yields `SuccessUrl`, "ERROR" yields
`ErrorUrl`, "FAILURE" or "ABORT" yields `FailureUrl`; the polls before it
being neutral.  If the deadline elapses with every polled URL neutral, the
bounded wait for an on-page element containing success/failure vocabulary
yields that element's trimmed text as `MessageText`, and `Unknown` when that
wait also times out. -/
theorem wait_for_result_spec (pre : List String) (u : String) (rest urls : List String)
    (pageEl : Option String) (t : String) :
    ((∀ v ∈ pre, classify_url v = none) →
      (strContains (upperStr u) "SUCCESS" = true →
        wait_for_result (pre ++ u :: rest) pageEl = .SuccessUrl) ∧
      (strContains (upperStr u) "SUCCESS" = false →
        strContains (upperStr u) "ERROR" = true →
        wait_for_result (pre ++ u :: rest) pageEl = .ErrorUrl) ∧
      (strContains (upperStr u) "SUCCESS" = false →
        strContains (upperStr u) "ERROR" = false →
        (strContains (upperStr u) "FAILURE" = true ∨
          strContains (upperStr u) "ABORT" = true) →
        wait_for_result (pre ++ u :: rest) pageEl = .FailureUrl)) ∧
    ((∀ v ∈ urls, classify_url v = none) →
      (vocabMatch t = true →
        wait_for_result urls (some t) = .MessageText (pyStrip t)) ∧
      wait_for_result urls none = .Unknown) := by
  constructor
  · intro hpre
    refine ⟨fun hs => ?_, fun hs he => ?_, fun hs he hf => ?_⟩
    · rw [wfr_append _ _ hpre, wfr_cons]
      simp [classify_url, hs]
    · rw [wfr_append _ _ hpre, wfr_cons]
      simp [classify_url, hs, he]
    · rw [wfr_append _ _ hpre, wfr_cons]
      rcases hf with hf | hf <;> simp [classify_url, hs, he, hf]
  · intro hurls
    have hred : ∀ p : Option String, wait_for_result urls p = wait_for_result [] p := by
      intro p
      have h := @wfr_append urls [] p hurls
      rwa [List.append_nil] at h
    constructor
    · intro hv
      rw [hred]
      simp only [wait_for_result]
      rw [if_neg (vocab_strip_ne_empty hv)]
    · rw [hred]
      rfl

/-- Witness for C1: all five branches evaluated on concrete polling runs. -/
theorem wait_for_result_spec_witness :
    wait_for_result ["https://shop.example.org/checkout", "https://example.org/SUCCESS?id=1"]
        (some "Zahlung fehlgeschlagen") = .SuccessUrl ∧
    wait_for_result ["https://shop.example.org/checkout", "https://example.org/error?id=1"]
        none = .ErrorUrl ∧
    wait_for_result ["https://shop.example.org/checkout", "https://example.org/Abort?id=1"]
        none = .FailureUrl ∧
    pyStrip "  Zahlung erfolgreich " = "Zahlung erfolgreich" ∧
    wait_for_result ["https://shop.example.org/checkout"] (some "  Zahlung erfolgreich ") =
      .MessageText (pyStrip "  Zahlung erfolgreich ") ∧
    wait_for_result ["https://shop.example.org/checkout"] none = .Unknown := by
  refine ⟨?_, ?_, ?_, by decide, ?_, ?_⟩
  · exact ((wait_for_result_spec ["https://shop.example.org/checkout"]
      "https://example.org/SUCCESS?id=1" [] [] (some "Zahlung fehlgeschlagen") "").1
      (by decide)).1 (by decide)
  · exact ((wait_for_result_spec ["https://shop.example.org/checkout"]
      "https://example.org/error?id=1" [] [] none "").1
      (by decide)).2.1 (by decide) (by decide)
  · exact ((wait_for_result_spec ["https://shop.example.org/checkout"]
      "https://example.org/Abort?id=1" [] [] none "").1
      (by decide)).2.2 (by decide) (by decide) (Or.inr (by decide))
  · exact ((wait_for_result_spec [] "" [] ["https://shop.example.org/checkout"]
      (some "x") "  Zahlung erfolgreich ").2 (by decide)).1 (by decide)
  · exact ((wait_for_result_spec [] "" [] ["https://shop.example.org/checkout"]
      none "").2 (by decide)).2

/-- C2: when the URL comes to contain "SUCCESS" (case-insensitively) before
the deadline, the classifier returns `SuccessUrl` for every state of the
page text — URL-based classification takes priority over page-text
classification. -/
theorem url_beats_page_text (pre : List String) (u : String) (rest : List String)
    (pageEl : Option String)
    (hpre : ∀ v ∈ pre, classify_url v = none)
    (hs : strContains (upperStr u) "SUCCESS" = true) :
    wait_for_result (pre ++ u :: rest) pageEl = .SuccessUrl := by
  rw [wfr_append _ _ hpre, wfr_cons]
  simp [classify_url, hs]

/-- Witness for C2: the URL reaches "Success" while the page text holds
failure vocabulary, and the classification is still `SuccessUrl`. -/
theorem url_beats_page_text_witness :
    vocabMatch "Zahlung fehlgeschlagen" = true ∧
    wait_for_result ["https://shop.example.org/start", "https://example.org/Success?x=1"]
      (some "Zahlung fehlgeschlagen") = .SuccessUrl :=
  ⟨by decide,
    url_beats_page_text ["https://shop.example.org/start"] "https://example.org/Success?x=1"
      [] (some "Zahlung fehlgeschlagen") (by decide) (by decide)⟩

/-- C9: within one poll iteration the URL keywords are checked in the fixed
order SUCCESS, ERROR, FAILURE/ABORT, so a URL containing several keywords is
classified by the first keyword in that order; one iteration of
`wait_for_result` applies exactly this classification. -/
theorem classify_url_keyword_order (url : String) :
    (strContains (upperStr url) "SUCCESS" = true →
      classify_url url = some .SuccessUrl) ∧
    (strContains (upperStr url) "SUCCESS" = false →
      strContains (upperStr url) "ERROR" = true →
      classify_url url = some .ErrorUrl) ∧
    (strContains (upperStr url) "SUCCESS" = false →
      strContains (upperStr url) "ERROR" = false →
      (strContains (upperStr url) "FAILURE" = true ∨
        strContains (upperStr url) "ABORT" = true) →
      classify_url url = some .FailureUrl) ∧
    (∀ rest pageEl, wait_for_result (url :: rest) pageEl =
      match classify_url url with
      | some o => o
      | none => wait_for_result rest pageEl) := by
  refine ⟨fun hs => ?_, fun hs he => ?_, fun hs he hf => ?_,
    fun rest pageEl => wfr_cons url rest pageEl⟩
  · simp [classify_url, hs]
  · simp [classify_url, hs, he]
  · rcases hf with hf | hf <;> simp [classify_url, hs, he, hf]

theorem try_labels_of_first_working {dom : List Elem} {labels : List String}
    {value l : String} (h : first_working dom labels value = some l) :
    ∃ dom', try_label dom l value = some dom' ∧
      try_labels dom labels value = some (dom', l) := by
  induction labels with
  | nil => cases h
  | cons l0 rest ih =>
    cases h0 : try_label dom l0 value with
    | some d0 =>
      have hfw : first_working dom (l0 :: rest) value = some l0 := by
        simp [first_working, List.find?_cons, h0]
      rw [hfw] at h
      cases h
      exact ⟨d0, h0, by simp [try_labels, h0]⟩
    | none =>
      have hfw : first_working dom (l0 :: rest) value = first_working dom rest value := by
        simp [first_working, List.find?_cons, h0]
      rw [hfw] at h
      obtain ⟨dom', hd, ht⟩ := ih h
      exact ⟨dom', hd, by simp [try_labels, h0, ht]⟩

theorem enter_any_of_try_labels {dom dom' : List Elem} {labels kws : List String}
    {value l : String}
    (h : try_labels dom labels value = some (dom', l)) :
    enter_any dom labels kws value = some (dom', .labelExact l) := by
  cases labels with
  | nil => cases h
  | cons l0 rest =>
    cases h0 : try_label dom l0 value with
    | some d0 =>
      simp only [try_labels, h0, Option.some.injEq, Prod.mk.injEq] at h
      obtain ⟨rfl, rfl⟩ := h
      simp [enter_any, first_attempt, h0]
    | none =>
      simp only [try_labels, h0] at h
      simp [enter_any, first_attempt, try_labels, h0, h]

theorem try_labels_none {dom : List Elem} {labels : List String} {value : String}
    (h : ∀ l ∈ labels, try_label dom l value = none) :
    try_labels dom labels value = none := by
  induction labels with
  | nil => rfl
  | cons l0 rest ih =>
    simp [try_labels, h l0 (List.mem_cons_self _ _)]
    exact ih fun l hl => h l (List.mem_cons_of_mem _ hl)

/-- C3: whenever some label candidate admits a satisfiable label-exact
match, `enter_any` resolves through the label-exact strategy (never through
the attribute-keyword strategy), and the winning candidate is the first one
in the descriptor's order that works. -/
theorem enter_any_label_priority (dom : List Elem) (labels kws : List String)
    (value l : String)
    (h : first_working dom labels value = some l) :
    ∃ dom', try_label dom l value = some dom' ∧
      enter_any dom labels kws value = some (dom', .labelExact l) := by
  obtain ⟨dom', h1, h2⟩ := try_labels_of_first_working h
  exact ⟨dom', h1, enter_any_of_try_labels h2⟩

/-- Witness for C3: with two workable candidates the earlier one wins, and
the strategy is label-exact although the attribute keywords also match. -/
theorem enter_any_label_priority_witness :
    first_working domTwoLabels ["E-Mail", "Email"] "v" = some "E-Mail" ∧
    ∃ dom', try_label domTwoLabels "E-Mail" "v" = some dom' ∧
      enter_any domTwoLabels ["E-Mail", "Email"] ["email"] "v" =
        some (dom', .labelExact "E-Mail") :=
  ⟨by decide,
    enter_any_label_priority domTwoLabels ["E-Mail", "Email"] ["email"] "v" "E-Mail"
      (by decide)⟩

/-- C4 counterexample: in `domHiddenShadow` the label-exact match resolves
to the hidden element `hiddenShadowInput`, a visible element
(`visibleShadowInput`) matching the attribute keywords exists, and yet
`enter_any` fails outright instead of succeeding via the attribute-keyword
strategy: the hidden element is also the first attribute-keyword match in
document order, and the bounded visibility wait on that one element times
out. -/
theorem enter_any_hidden_shadow_cex :
    by_label_input domHiddenShadow "E-Mail" = some (.byId "email1") ∧
    findElem domHiddenShadow (.byId "email1") = some (1, hiddenShadowInput) ∧
    hiddenShadowInput.visible = false ∧
    visibleShadowInput ∈ domHiddenShadow ∧
    isFieldTag visibleShadowInput = true ∧
    attrKwMatch ["email"] visibleShadowInput = true ∧
    visibleShadowInput.visible = true ∧
    enter_any domHiddenShadow ["E-Mail"] ["email"] "v" = none := by
  decide

/-- C4 amended: when every label candidate fails (for instance because the
labelled element is hidden) and the first element in document order matching
the attribute keywords is visible, `enter_any` skips the hidden
label-matched element and succeeds via the attribute-keyword strategy. -/
theorem enter_any_visibility_gating (dom : List Elem) (labels kws : List String)
    (value : String) (i : Nat) (e : Elem)
    (hlab : ∀ l ∈ labels, try_label dom l value = none)
    (hattr : findElem dom (.attrs kws) = some (i, e))
    (hvis : e.visible = true) :
    enter_any dom labels kws value =
      some (dom.set i (typeKeys (clearEl e) value), .attrKeyword) := by
  have ht : try_labels dom labels value = none := try_labels_none hlab
  have hfa : first_attempt dom labels value = none := by
    cases labels with
    | nil => rfl
    | cons l0 rest => simp [first_attempt, hlab l0 (List.mem_cons_self _ _)]
  have het : enter_text dom (.attrs kws) value =
      some (dom.set i (typeKeys (clearEl e) value)) := by
    simp [enter_text, hattr, hvis]
  simp [enter_any, hfa, ht, het]

/-- Witness for C4 amended: the labelled element of `domHiddenLabel` is
hidden, the first attribute-keyword match (`custEmailInput`) is visible, and
`enter_any` fills it via the attribute-keyword strategy. -/
theorem enter_any_visibility_gating_witness :
    by_label_input domHiddenLabel "E-Mail" = some (.byId "em") ∧
    (findElem domHiddenLabel (.byId "em")).map (fun p => p.2.visible) = some false ∧
    enter_any domHiddenLabel ["E-Mail"] ["email"] "v" =
      some (domHiddenLabel.set 2 (typeKeys (clearEl custEmailInput) "v"), .attrKeyword) :=
  ⟨by decide, by decide,
    enter_any_visibility_gating domHiddenLabel ["E-Mail"] ["email"] "v" 2 custEmailInput
      (by decide) (by decide) (by decide)⟩

/-- Witness for C9: a URL containing both "SUCCESS" and "ERROR" classifies
as `SuccessUrl`, one containing both "ERROR" and "FAILURE" as `ErrorUrl`. -/
theorem classify_url_keyword_order_witness :
    strContains (upperStr "https://example.org/SUCCESS?cause=ERROR") "ERROR" = true ∧
    classify_url "https://example.org/SUCCESS?cause=ERROR" = some .SuccessUrl ∧
    strContains (upperStr "https://example.org/error_failure") "FAILURE" = true ∧
    classify_url "https://example.org/error_failure" = some .ErrorUrl :=
  ⟨by decide,
    (classify_url_keyword_order "https://example.org/SUCCESS?cause=ERROR").1 (by decide),
    by decide,
    (classify_url_keyword_order "https://example.org/error_failure").2.1
      (by decide) (by decide)⟩

theorem switchLoop_findIdx (frames : List Bool) :
    ∀ i, switchLoop i frames =
      match List.findIdx? (fun b => b) frames with
      | some j => (FrameCtx.frame (i + j), true)
      | none => (FrameCtx.top, false) := by
  induction frames with
  | nil => intro i; rfl
  | cons b rest ih =>
    intro i
    cases b with
    | true => simp [switchLoop, List.findIdx?_cons]
    | false =>
      rw [show switchLoop i (false :: rest) = switchLoop (i + 1) rest from rfl, ih (i + 1)]
      simp only [List.findIdx?_cons]
      cases h : List.findIdx? (fun b => b) rest with
      | some j => simp [h, Nat.add_assoc, Nat.add_comm 1 j]
      | none => simp [h]

/-- C5: the frame context is always exactly top-level or one specific
iframe; `switch_into_iframe_with` ignores the prior context (it resets to
top-level first), activates the first iframe in document order in which the
probe becomes visible and returns `true`, and restores top-level returning
`false` when no iframe matches (`List.findIdx?` returning `none`);
`_leave_iframe` yields top-level from any prior state, and any sequence of
the two calls ends in top-level or one specific iframe. -/
theorem frame_context_invariant (prior : FrameCtx) (frames : List Bool)
    (ops : List FrameOp) :
    switch_into_iframe_with prior frames =
      (match List.findIdx? (fun b => b) frames with
       | some i => (FrameCtx.frame i, true)
       | none => (FrameCtx.top, false)) ∧
    switch_into_iframe_with prior frames = switch_into_iframe_with .top frames ∧
    leave_iframe prior = .top ∧
    (runFrameOps prior ops = .top ∨ ∃ i, runFrameOps prior ops = .frame i) := by
  refine ⟨?_, rfl, rfl, ?_⟩
  · have h := switchLoop_findIdx frames 0
    simpa [switch_into_iframe_with] using h
  · cases h : runFrameOps prior ops with
    | top => exact Or.inl rfl
    | frame i => exact Or.inr ⟨i, rfl⟩

/-- C6: for every failure pattern of the fill sites, the run of
`fill_customer_data` propagates no failure exactly when only best-effort
sites (salutation, country) fail; in that case every site is reached; and a
propagated failure names a mandatory site that failed, with exactly the
sites up to and including it reached — the rest are aborted. -/
theorem fill_customer_data_policy :
    ∀ fails : Field → Bool,
      ((fill_customer_data fails).2 = none ↔
        ∀ f, fails f = true → best_effort f = true) ∧
      ((fill_customer_data fails).2 = none → (fill_customer_data fails).1 = fieldOrder) ∧
      (∀ f, (fill_customer_data fails).2 = some f →
        best_effort f = false ∧ fails f = true ∧
        (fill_customer_data fails).1 = fieldOrder.take (fieldOrder.indexOf f + 1)) := by
  set_option maxRecDepth 8000 in decide

/-- Witness for C6: failures on exactly the best-effort sites propagate
nothing and reach every site; a failure on the mandatory city site
propagates and the street and country sites are not reached. -/
theorem fill_customer_data_policy_witness :
    (fill_customer_data best_effort).2 = none ∧
    (fill_customer_data best_effort).1 = fieldOrder ∧
    best_effort Field.city = false ∧
    (fill_customer_data failsCity).2 = some Field.city ∧
    (fill_customer_data failsCity).1 = fieldOrder.take (fieldOrder.indexOf Field.city + 1) :=
  ⟨(fill_customer_data_policy best_effort).1.mpr (by decide),
    (fill_customer_data_policy best_effort).2.1
      ((fill_customer_data_policy best_effort).1.mpr (by decide)),
    by decide, by decide,
    ((fill_customer_data_policy failsCity).2.2 Field.city (by decide)).2.2⟩

/-- C7: a second `_enter_text` on the same locator clears before typing:
the element it writes ends up holding exactly the second value, whatever the
first call put there. -/
theorem enter_text_clear_then_type (dom dom1 dom2 : List Elem) (loc : Locator)
    (v1 v2 : String)
    (h1 : enter_text dom loc v1 = some dom1)
    (h2 : enter_text dom1 loc v2 = some dom2) :
    ∃ i e, findElem dom1 loc = some (i, e) ∧
      dom2 = dom1.set i (typeKeys (clearEl e) v2) ∧
      (typeKeys (clearEl e) v2).value = v2 := by
  cases hf : findElem dom1 loc with
  | none => simp [enter_text, hf] at h2
  | some ie =>
    obtain ⟨i, e⟩ := ie
    cases hv : e.visible with
    | false => simp [enter_text, hf, hv] at h2
    | true =>
      simp only [enter_text, hf, hv, if_true, Option.some.injEq] at h2
      exact ⟨i, e, rfl, h2.symm, rfl⟩

/-- Witness for C7: two consecutive `_enter_text` calls on `By.ID em` leave
only the second value `"bbb"` in the input. -/
theorem enter_text_clear_then_type_witness :
    ∃ i e, findElem dom7a (.byId "em") = some (i, e) ∧
      dom7b = dom7a.set i (typeKeys (clearEl e) "bbb") ∧
      (typeKeys (clearEl e) "bbb").value = "bbb" :=
  enter_text_clear_then_type domLabelFor dom7a dom7b (.byId "em") "aaa" "bbb"
    (by decide) (by decide)

/-- C8: for every card record the payment step first attempts the combined
expiry string — month, a slash, the last two characters of the configured
year — on the `EXPIRY_XP` locator; on failure it falls back to entering
month and year separately into the fields with fixed element ids `exp-date`
and `expiryYear`. -/
theorem fill_credit_card_expiry_fallback (ok : Bool) (card : CardData) :
    (fill_credit_card_attempts ok card)[1]? =
      some (.xpath EXPIRY_XP, card.expiry_month ++ "/" ++ lastTwo card.expiry_year) ∧
    (ok = true → fill_credit_card_attempts ok card =
      [(.xpath CARD_NUMBER_XP, card.number),
        (.xpath EXPIRY_XP, card.expiry_month ++ "/" ++ lastTwo card.expiry_year),
        (.xpath CVC_XP, card.cvv)]) ∧
    (ok = false →
      (fill_credit_card_attempts ok card)[2]? = some (.byId "exp-date", card.expiry_month) ∧
      (fill_credit_card_attempts ok card)[3]? = some (.byId "expiryYear", card.expiry_year)) := by
  cases ok <;> simp [fill_credit_card_attempts, fill_expiry_attempts]

/-- Witness for C8: the configured test card, with the combined attempt
failing: the combined `12/26` comes first, then the two fixed-id entries. -/
theorem fill_credit_card_expiry_fallback_witness :
    lastTwo "2026" = "26" ∧
    (fill_credit_card_attempts false testCard)[1]? = some (.xpath EXPIRY_XP, "12/26") ∧
    (fill_credit_card_attempts false testCard)[2]? = some (.byId "exp-date", "12") ∧
    (fill_credit_card_attempts false testCard)[3]? = some (.byId "expiryYear", "2026") := by
  have h := fill_credit_card_expiry_fallback false testCard
  exact ⟨by decide, h.1, (h.2.2 rfl).1, (h.2.2 rfl).2⟩

/-- C10: the contenteditable fallback clicks and types without clearing:
the element ends up holding the old content with the new value appended,
which differs from the new value alone whenever old content was present. -/
theorem editable_append_no_clear (dom : List Elem) (kws : List String) (value : String)
    (i : Nat) (e : Elem)
    (hfind : findElem dom (.editable kws) = some (i, e))
    (hvis : e.visible = true)
    (hold : e.value ≠ "") :
    editable_enter dom kws value = some (dom.set i (typeKeys e value)) ∧
    (typeKeys e value).value = e.value ++ value ∧
    (typeKeys e value).value ≠ value := by
  refine ⟨by simp [editable_enter, hfind, hvis], rfl, ?_⟩
  intro h
  apply hold
  have hlen := congrArg String.length h
  rw [show (typeKeys e value).value = e.value ++ value from rfl,
    String.length_append] at hlen
  have h0 : e.value.length = 0 := by omega
  cases hval : e.value with
  | mk data =>
    cases data with
    | nil => rfl
    | cons c t => rw [hval] at h0; simp [String.length] at h0

/-- Witness for C10: typing `"new"` into the contenteditable element with
content `"old"` leaves `"oldnew"`, not `"new"`. -/
theorem editable_append_no_clear_witness :
    editable_enter domEditable ["email"] "new" =
      some (domEditable.set 0 (typeKeys editDiv "new")) ∧
    (typeKeys editDiv "new").value = "old" ++ "new" ∧
    (typeKeys editDiv "new").value ≠ "new" := by
  have h := editable_append_no_clear domEditable ["email"] "new" 0 editDiv
    (by decide) (by decide) (by decide)
  exact ⟨h.1, h.2.1, h.2.2⟩

end Checkout
